import Mathlib

set_option maxRecDepth 4000

/-!
Verification of the tgdcbridge-JS message-forwarding pipeline against its
specification.  Each JavaScript class of the repository is shallowly embedded
as a Lean namespace: pure functions become Lean functions, filesystem state is
passed explicitly as a map from paths to file contents, fallible steps return
Option or Except, and external library calls (base64 encoding, sharp image
encoding, HTTP) are abstracted as function parameters that the theorems
quantify over.
-/

/-! ## Generic string helpers (JS String.prototype methods used by the code) -/

/-- Whether the character list `p` is an initial segment of `l`. -/
def charsLeadWith : List Char → List Char → Bool
  | [], _ => true
  | _ :: _, [] => false
  | a :: p, b :: l => a == b && charsLeadWith p l

/-- Whether the character list `pat` occurs contiguously inside `l`
(JS `String.prototype.includes`). -/
def charsContain (pat : List Char) : List Char → Bool
  | [] => charsLeadWith pat []
  | b :: l => charsLeadWith pat (b :: l) || charsContain pat l

/-- JS `s.includes(pat)`. -/
def strIncludes (s pat : String) : Bool :=
  charsContain pat.data s.data

/-- JS `s.endsWith(pat)` (used to state the truncation-marker property). -/
def strClosesWith (s pat : String) : Bool :=
  charsLeadWith pat.data.reverse s.data.reverse

/-- JS `s.toLowerCase()` (character-wise, as the code only lowercases ASCII
file extensions). -/
def jsToLower (s : String) : String :=
  ⟨s.data.map Char.toLower⟩

/-- JS `s.substring(0, n)`. -/
def jsSubstringTo (s : String) (n : Nat) : String :=
  ⟨s.data.take n⟩

/-- Replace the first occurrence of `pat` in `l` by `rep` (JS
`String.prototype.replace` with a string pattern; an empty pattern matches
at the start). -/
def replaceFirstChars (pat rep : List Char) : List Char → List Char
  | [] => if charsLeadWith pat [] then rep else []
  | a :: rest =>
    if charsLeadWith pat (a :: rest) then rep ++ (a :: rest).drop pat.length
    else a :: replaceFirstChars pat rep rest

/-- JS `s.replace(pat, rep)` for string patterns. -/
def jsReplaceFirst (s pat rep : String) : String :=
  ⟨replaceFirstChars pat.data rep.data s.data⟩

theorem charsLeadWith_append (p r : List Char) : charsLeadWith p (p ++ r) = true := by
  induction p with
  | nil => rfl
  | cons a p ih => simp [charsLeadWith, ih]

/-! ## Filesystem model

The local filesystem is a map from path strings to file contents (a file's
size, as reported by `fs.stat`, is the length of its content string).
`fs.access`/`fs.stat` on an absent path throw in JS; the model returns
`none` there and the caller's try/catch is translated explicitly. -/

def FS : Type := String → Option String

/-- `fs.access(p)` succeeding. -/
def fileOnDisk (fs : FS) (p : String) : Bool :=
  (fs p).isSome

/-- `fs.unlink(p)`. -/
def fsUnlink (fs : FS) (p : String) : FS :=
  fun q => if q = p then none else fs q

/-- `fs.writeFile(p, c)`. -/
def fsWrite (fs : FS) (p : String) (c : String) : FS :=
  fun q => if q = p then some c else fs q

/-! ## Node `path` module (the parts the code uses, POSIX form) -/

/-- `path.basename(p)`: the part after the last slash. -/
def pathBasename (p : String) : String :=
  ⟨(p.data.reverse.takeWhile (fun c => c ≠ '/')).reverse⟩

/-- `path.dirname(p)` restricted to the shapes the code builds (no trailing
slash): everything before the last slash, `"."` when there is no slash. -/
def pathDirname (p : String) : String :=
  if p.data.contains '/' then
    ⟨(p.data.reverse.dropWhile (fun c => c ≠ '/')).reverse.dropLast⟩
  else "."

/-- `path.extname(p)`: from the last `'.'` of the basename to the end; empty
when the basename has no dot, or its only dot is the leading character. -/
def pathExtname (p : String) : String :=
  let base := (pathBasename p).data
  let afterDot := base.reverse.takeWhile (fun c => c ≠ '.')
  if base.contains '.' && afterDot.length + 1 < base.length then
    ⟨'.' :: afterDot.reverse⟩
  else ""

/-- `path.join(dir, file)` for the simple two-component uses in the code. -/
def pathJoin (dir file : String) : String :=
  dir ++ "/" ++ file

/-! ## src/lib/database.js — `Database.getRouting`

The `routing` table row shape comes from `db/01-create-database.sql`:
`ID_Groups BIGINT NOT NULL`, `ID_Topic INT DEFAULT NULL`,
`DC_Webhook TEXT NOT NULL`, `Comment TEXT DEFAULT NULL`.
The WHERE clause of `getRouting`,
`ID_Groups = ? AND (ID_Topic = ? OR (ID_Topic IS NULL AND ? IS NULL))`,
is embedded with MySQL three-valued logic so that the `NULL`-comparison
semantics is taken from SQL, not from the spec's words. -/

structure RoutingEntry where
  ID_Groups : Int
  ID_Topic : Option Int
  DC_Webhook : String
  Comment : Option String
deriving DecidableEq, Repr

namespace Database

/-- SQL three-valued truth value. -/
inductive SqlBool where
  | tru
  | fls
  | nul
deriving DecidableEq, Repr

/-- SQL `=` on nullable integer values: comparison with NULL is NULL. -/
def sqlEq (a b : Option Int) : SqlBool :=
  match a, b with
  | some x, some y => if x = y then .tru else .fls
  | _, _ => .nul

/-- SQL `IS NULL` (never NULL itself). -/
def sqlIsNull (a : Option Int) : SqlBool :=
  match a with
  | none => .tru
  | some _ => .fls

/-- SQL three-valued AND. -/
def sqlAnd (a b : SqlBool) : SqlBool :=
  match a, b with
  | .fls, _ => .fls
  | _, .fls => .fls
  | .tru, .tru => .tru
  | _, _ => .nul

/-- SQL three-valued OR. -/
def sqlOr (a b : SqlBool) : SqlBool :=
  match a, b with
  | .tru, _ => .tru
  | _, .tru => .tru
  | .fls, .fls => .fls
  | _, _ => .nul

/-- The WHERE clause of `getRouting` evaluated on row `e` with parameters
`g` (`groupId`, never null on the caller's path) and `t` (`topicId`, null
modelled as `none`):
`ID_Groups = ? AND (ID_Topic = ? OR (ID_Topic IS NULL AND ? IS NULL))`. -/
def routingWhere (e : RoutingEntry) (g : Int) (t : Option Int) : SqlBool :=
  sqlAnd (sqlEq (some e.ID_Groups) (some g))
    (sqlOr (sqlEq e.ID_Topic t) (sqlAnd (sqlIsNull e.ID_Topic) (sqlIsNull t)))

/-- A row is in the result set iff its WHERE value is `tru` (SQL selects
rows whose predicate is true, discarding both false and NULL). -/
def rowSelected (e : RoutingEntry) (g : Int) (t : Option Int) : Bool :=
  routingWhere e g t = .tru

/-- `Database.getRouting(groupId, topicId)`: executes the SELECT over table
state `tbl` and returns `rows[0] || null`.  (SQL row order without ORDER BY
is unspecified; the model fixes table order.  The theorem below only uses
soundness and completeness of the selection, which hold for any order.) -/
def getRouting (tbl : List RoutingEntry) (g : Int) (t : Option Int) :
    Option RoutingEntry :=
  (tbl.filter (fun e => rowSelected e g t)).head?

/-- The SQL three-valued WHERE clause is exactly strict equality of the
group id and strict `Option` equality of the topic id (absent matches only
absent, a concrete value matches only the same concrete value). -/
theorem rowSelected_iff (e : RoutingEntry) (g : Int) (t : Option Int) :
    rowSelected e g t = true ↔ e.ID_Groups = g ∧ e.ID_Topic = t := by
  obtain ⟨eg, et, w, c⟩ := e
  cases et <;> cases t <;>
    simp only [rowSelected, routingWhere, sqlEq, sqlIsNull, sqlAnd, sqlOr,
      decide_eq_true_eq] <;>
    split_ifs <;> simp_all

/-- Claim C1: for every routing query `(groupId, topicId)`,
`Database.getRouting` returns a routing entry `e` only if `e` is a table row
whose stored group id equals `groupId` and whose stored topic id matches
`topicId` by strict equality including the absent case (a `none` query
matches only `NULL`-topic rows, a concrete query matches only rows storing
exactly that topic id), and it returns `null` precisely when no table row
matches that way. -/
theorem getRouting_strict_match (tbl : List RoutingEntry) (g : Int)
    (t : Option Int) :
    (∀ e, getRouting tbl g t = some e →
      e ∈ tbl ∧ e.ID_Groups = g ∧ e.ID_Topic = t) ∧
    (getRouting tbl g t = none ↔
      ∀ e ∈ tbl, ¬(e.ID_Groups = g ∧ e.ID_Topic = t)) := by
  constructor
  · intro e he
    cases hf : tbl.filter (fun e => rowSelected e g t) with
    | nil => simp [getRouting, hf] at he
    | cons a l =>
      have hea : e = a := by
        have := he
        simp only [getRouting, hf, List.head?_cons, Option.some.injEq] at this
        exact this.symm
      subst hea
      have hmem : e ∈ tbl.filter (fun e => rowSelected e g t) := by
        rw [hf]; exact List.mem_cons_self e l
      rw [List.mem_filter] at hmem
      exact ⟨hmem.1, (rowSelected_iff e g t).1 hmem.2⟩
  · rw [getRouting, List.head?_eq_none_iff, List.filter_eq_nil_iff]
    simp only [rowSelected_iff]

/-- Concrete routing row used to instantiate the C1 theorem. -/
def c1Entry : RoutingEntry :=
  ⟨-1001234567890, none, "https://discord.com/api/webhooks/1/abc", none⟩

/-- Instantiation of `getRouting_strict_match` on a one-row table queried
with a topic-less key. -/
theorem getRouting_strict_match_witness :
    c1Entry ∈ [c1Entry] ∧ c1Entry.ID_Groups = -1001234567890 ∧
      c1Entry.ID_Topic = none :=
  (getRouting_strict_match [c1Entry] (-1001234567890) none).1 c1Entry (by decide)

end Database

/-! ## src/lib/discord-forwarder.js — `DiscordForwarder`

`sendMessage` is embedded as a function of an explicit filesystem state and
an HTTP oracle `httpPost : Nat → Bool` giving the outcome of the successive
webhook POST requests the process would issue (`true` = status 200/204,
`false` = thrown transport error or non-success status).  Base64 encoding of
a file buffer (`Buffer.toString("base64")`) is an external library call and
is abstracted as the `b64` field of the configuration; the default avatar
path `path.join(__dirname, "../img", process.env.PP || "PP.png")` is the
`ppPath` field. -/

namespace DiscordForwarder

/-- `this.maxRetries = 3`. -/
def maxRetries : Nat := 3

/-- `this.retryDelay = 2000` (milliseconds). -/
def retryDelay : Nat := 2000

/-- One element of `messageData.files`. -/
structure MsgFile where
  name : String
  path : String
  type : String
deriving DecidableEq, Repr

/-- The `messageData` object assembled by `TelegramBot.processMessage`. -/
structure MessageData where
  username : Option String
  avatarUrl : Option String
  content : Option String
  files : List MsgFile
deriving DecidableEq, Repr

/-- External collaborators of the forwarder. -/
structure Config where
  b64 : String → String
  ppPath : String

/-- `DiscordForwarder.getMimeType`. -/
def getMimeType (filePath : String) : String :=
  let ext := jsToLower (pathExtname filePath)
  if ext = ".jpg" ∨ ext = ".jpeg" then "image/jpeg"
  else if ext = ".png" then "image/png"
  else if ext = ".gif" then "image/gif"
  else if ext = ".webp" then "image/webp"
  else if ext = ".mp4" then "video/mp4"
  else if ext = ".webm" then "video/webm"
  else if ext = ".pdf" then "application/pdf"
  else "application/octet-stream"

/-- `DiscordForwarder.uploadAvatarToDiscord`: reads the file and returns a
base64 data URL; its internal catch returns `null` when the read fails. -/
def uploadAvatarToDiscord (cfg : Config) (fs : FS) (avatarPath : String) :
    Option String :=
  match fs avatarPath with
  | some fileBuffer =>
      some ("data:" ++ getMimeType avatarPath ++ ";base64," ++
        cfg.b64 fileBuffer)
  | none => none

/-- The avatar-preparation steps of `sendMessage` (lines 156–167): use the
provided avatar only when it exists on the local filesystem, otherwise fall
back to the default profile picture when that exists, else `null`. -/
def prepareAvatar (cfg : Config) (fs : FS) (avatarUrl : Option String) :
    Option String :=
  match avatarUrl with
  | some a =>
      if fileOnDisk fs a then uploadAvatarToDiscord cfg fs a
      else if fileOnDisk fs cfg.ppPath then
        uploadAvatarToDiscord cfg fs cfg.ppPath
      else none
  | none =>
      if fileOnDisk fs cfg.ppPath then uploadAvatarToDiscord cfg fs cfg.ppPath
      else none

/-- The webhook JSON payload `{username, avatar_url, content}`. -/
structure Payload where
  username : String
  avatar_url : Option String
  content : String
deriving DecidableEq, Repr

/-- The payload object built by `sendMessage` (lines 169–174). -/
def mkPayload (cfg : Config) (fs : FS) (m : MessageData) : Payload :=
  { username := m.username.getD "Unknown User"
    avatar_url := prepareAvatar cfg fs m.avatarUrl
    content := m.content.getD "" }

/-- `DiscordForwarder.deleteFile`: unlink guarded by an existence check;
its internal catch makes it total. -/
def deleteFile (fs : FS) (filePath : String) : FS :=
  if fileOnDisk fs filePath then fsUnlink fs filePath else fs

/-- `DiscordForwarder.cleanupTempFiles`: delete the avatar file and every
attached file whose path contains the substring `"/temp/"`. -/
def cleanupTempFiles (fs : FS) (m : MessageData) : FS :=
  let fs1 :=
    match m.avatarUrl with
    | some a => if strIncludes a "/temp/" then deleteFile fs a else fs
    | none => fs
  m.files.foldl
    (fun acc file =>
      if strIncludes file.path "/temp/" then deleteFile acc file.path else acc)
    fs1

/-- Result of one `sendMessage` call: the outcome (`ok` for a normal return,
`error` for the rethrown exception), the payload that was built, and the
filesystem state afterwards. -/
structure SendOutcome where
  result : Except String Unit
  payload : Payload
  fs : FS

/-- `DiscordForwarder.sendMessage`: rate-limit pacing (time-only, no effect
on the modelled state), avatar preparation, payload assembly, a single
webhook POST whose outcome is `httpPost 0`, then `cleanupTempFiles` — run in
the `try` body on success and in the `catch` block before rethrowing on
failure. -/
def sendMessage (cfg : Config) (httpPost : Nat → Bool) (fs : FS)
    (webhookUrl : String) (m : MessageData) : SendOutcome :=
  let payload := mkPayload cfg fs m
  if httpPost 0 then
    { result := .ok (), payload := payload, fs := cleanupTempFiles fs m }
  else
    { result := .error "Discord API returned status", payload := payload,
      fs := cleanupTempFiles fs m }

/-- `DiscordForwarder.formatMessage`.  (For empty `content` the JS guard
`if (!content) return ""` returns the empty string, which coincides with
returning `content` unchanged, so a plain `String` argument is faithful.) -/
def formatMessage (content : String) (maxLength : Nat) : String :=
  if content.length ≤ maxLength then content
  else jsSubstringTo content (maxLength - 20) ++ "\n\n[Message truncated]"

/-- Result of `DiscordForwarder.retryRequest`: whether some attempt
succeeded, how many attempts ran, and the waits (in ms) inserted between
consecutive attempts. -/
structure RetryOutcome where
  ok : Bool
  attemptsUsed : Nat
  delays : List Nat
deriving DecidableEq, Repr

/-- The `for (attempt = 1; attempt <= maxRetries; attempt++)` loop of
`retryRequest`, with 0-based attempt index `attempt` (JS attempt number is
`attempt + 1`) and `remaining` iterations left; the delay inserted after a
failed non-final attempt is `retryDelay * (attempt + 1)`. -/
def retryGo (request : Nat → Bool) (attempt : Nat) : Nat → RetryOutcome
  | 0 => { ok := false, attemptsUsed := 0, delays := [] }
  | remaining + 1 =>
    if request attempt then { ok := true, attemptsUsed := 1, delays := [] }
    else if remaining = 0 then { ok := false, attemptsUsed := 1, delays := [] }
    else
      let rest := retryGo request (attempt + 1) remaining
      { ok := rest.ok, attemptsUsed := rest.attemptsUsed + 1,
        delays := retryDelay * (attempt + 1) :: rest.delays }

/-- `DiscordForwarder.retryRequest` with the default bound. -/
def retryRequest (request : Nat → Bool) : RetryOutcome :=
  retryGo request 0 maxRetries

end DiscordForwarder

namespace DiscordForwarder

/-- Deleting a path makes it absent (also when it was already absent). -/
theorem deleteFile_apply_self (fs : FS) (p : String) : deleteFile fs p p = none := by
  by_cases h : (fs p).isSome
  · simp [deleteFile, fileOnDisk, fsUnlink, h]
  · simp only [deleteFile, fileOnDisk, h, if_false, Bool.false_eq_true]
    exact Option.not_isSome_iff_eq_none.mp h

/-- Deleting one path leaves every other path untouched. -/
theorem deleteFile_apply_other (fs : FS) (q p : String) (h : p ≠ q) :
    deleteFile fs q p = fs p := by
  unfold deleteFile fsUnlink
  split <;> simp [h]

/-- Deletion never resurrects an absent path. -/
theorem deleteFile_none_preserved (fs : FS) (q p : String) (h : fs p = none) :
    deleteFile fs q p = none := by
  by_cases hpq : p = q
  · subst hpq; exact deleteFile_apply_self fs p
  · rw [deleteFile_apply_other fs q p hpq]; exact h

/-- The per-file cleanup fold never resurrects an absent path. -/
theorem cleanupFold_none (files : List MsgFile) (acc : FS) (p : String)
    (h : acc p = none) :
    (files.foldl
      (fun acc file =>
        if strIncludes file.path "/temp/" then deleteFile acc file.path
        else acc) acc) p = none := by
  induction files generalizing acc with
  | nil => exact h
  | cons f rest ih =>
    simp only [List.foldl_cons]
    apply ih
    cases hq : strIncludes f.path "/temp/" with
    | true => simp [hq, deleteFile_none_preserved _ _ _ h]
    | false => simpa [hq] using h

/-- The per-file cleanup fold deletes every referenced path that contains
`"/temp/"`. -/
theorem cleanupFold_deletes (files : List MsgFile) (acc : FS) (p : String)
    (hmem : p ∈ files.map MsgFile.path) (htemp : strIncludes p "/temp/" = true) :
    (files.foldl
      (fun acc file =>
        if strIncludes file.path "/temp/" then deleteFile acc file.path
        else acc) acc) p = none := by
  induction files generalizing acc with
  | nil => simp at hmem
  | cons f rest ih =>
    simp only [List.map_cons, List.mem_cons] at hmem
    simp only [List.foldl_cons]
    rcases hmem with hp | hp
    · subst hp
      rw [htemp]
      simp only [if_true]
      exact cleanupFold_none rest _ _ (deleteFile_apply_self acc _)
    · exact ih _ hp

/-- The per-file cleanup fold touches no path outside `"/temp/"`. -/
theorem cleanupFold_preserves (files : List MsgFile) (acc : FS) (p : String)
    (h : strIncludes p "/temp/" = false) :
    (files.foldl
      (fun acc file =>
        if strIncludes file.path "/temp/" then deleteFile acc file.path
        else acc) acc) p = acc p := by
  induction files generalizing acc with
  | nil => rfl
  | cons f rest ih =>
    simp only [List.foldl_cons]
    rw [ih]
    cases hq : strIncludes f.path "/temp/" with
    | true =>
      simp only [hq, if_true]
      apply deleteFile_apply_other
      intro hpq
      rw [hpq, hq] at h
      exact Bool.true_eq_false.mp h
    | false => simp [hq]

end DiscordForwarder

namespace DiscordForwarder

/-- Shared concrete configuration for instantiations. -/
def cfgA : Config := { b64 := fun s => s, ppPath := "/app/img/PP.png" }

/-- Shared empty filesystem for instantiations. -/
def fsEmpty : FS := fun _ => none

/-- Claim C7: for every delivery attempt, after the webhook request resolves
— on success and on failure alike — `sendMessage` runs `cleanupTempFiles`,
so the filesystem afterwards is exactly `cleanupTempFiles` of the filesystem
before, every message-referenced path containing `"/temp/"` is deleted, and
the call reports failure exactly when the webhook request failed (so a
failed delivery, e.g. an HTTP 500, still has its temporary files deleted). -/
theorem sendMessage_cleanup_both_outcomes (cfg : Config)
    (httpPost : Nat → Bool) (fs : FS) (url : String) (m : MessageData)
    (p : String) :
    (sendMessage cfg httpPost fs url m).fs = cleanupTempFiles fs m ∧
    (strIncludes p "/temp/" = true →
      (m.avatarUrl = some p ∨ p ∈ m.files.map MsgFile.path) →
      (sendMessage cfg httpPost fs url m).fs p = none) ∧
    ((sendMessage cfg httpPost fs url m).result = .ok () ↔ httpPost 0 = true) := by
  have hfs : (sendMessage cfg httpPost fs url m).fs = cleanupTempFiles fs m := by
    by_cases h : httpPost 0 <;> simp [sendMessage, h]
  refine ⟨hfs, ?_, ?_⟩
  · intro htemp href
    rw [hfs]
    unfold cleanupTempFiles
    rcases href with hav | hmem
    · rw [hav]
      simp only [htemp, if_true]
      exact cleanupFold_none m.files _ p (deleteFile_apply_self fs p)
    · exact cleanupFold_deletes m.files _ p hmem htemp
  · by_cases h : httpPost 0 <;> simp [sendMessage, h]

/-- Concrete message whose avatar and single attachment are temp files. -/
def c7Msg : MessageData :=
  { username := some "Alice", avatarUrl := some "/app/temp/avatar_1.jpg",
    content := some "hello",
    files := [{ name := "photo.jpg", path := "/app/temp/photo_9_1.jpg",
                type := "image" }] }

/-- Concrete filesystem holding the two temp files of `c7Msg`. -/
def c7FS : FS := fun p =>
  if p = "/app/temp/avatar_1.jpg" ∨ p = "/app/temp/photo_9_1.jpg" then
    some "DATA"
  else none

/-- Instantiation of `sendMessage_cleanup_both_outcomes` on a failing
webhook (`httpPost` constantly false): the temp avatar is deleted anyway. -/
theorem sendMessage_cleanup_both_outcomes_witness :
    (sendMessage cfgA (fun _ => false) c7FS
      "https://discord.com/api/webhooks/1/abc" c7Msg).fs
        "/app/temp/avatar_1.jpg" = none :=
  (sendMessage_cleanup_both_outcomes cfgA (fun _ => false) c7FS
    "https://discord.com/api/webhooks/1/abc" c7Msg
    "/app/temp/avatar_1.jpg").2.1 (by decide) (Or.inl rfl)

/-- Claim C10: `sendMessage`'s cleanup deletes only paths containing the
substring `"/temp/"`: every path outside the temp directory — in particular
a cached avatar under `ava/` — is untouched by the whole delivery,
whatever the webhook outcome. -/
theorem sendMessage_preserves_non_temp (cfg : Config) (httpPost : Nat → Bool)
    (fs : FS) (url : String) (m : MessageData) (p : String)
    (h : strIncludes p "/temp/" = false) :
    (sendMessage cfg httpPost fs url m).fs p = fs p := by
  have hfs : (sendMessage cfg httpPost fs url m).fs = cleanupTempFiles fs m := by
    by_cases hh : httpPost 0 <;> simp [sendMessage, hh]
  rw [hfs]
  unfold cleanupTempFiles
  rw [cleanupFold_preserves m.files _ p h]
  cases hav : m.avatarUrl with
  | none => rfl
  | some a =>
    simp only
    cases hq : strIncludes a "/temp/" with
    | true =>
      simp only [if_true]
      apply deleteFile_apply_other
      intro hpq
      rw [hpq, hq] at h
      exact Bool.true_eq_false.mp h
    | false => simp [hq]

/-- Concrete message referencing a cached `ava/` avatar plus a temp file. -/
def c10Msg : MessageData :=
  { username := some "Bob", avatarUrl := some "/app/ava/777.jpg",
    content := some "hi",
    files := [{ name := "doc.pdf", path := "/app/temp/file_3_4.pdf",
                type := "file" }] }

/-- Concrete filesystem with the cached avatar and the temp file. -/
def c10FS : FS := fun p =>
  if p = "/app/ava/777.jpg" ∨ p = "/app/temp/file_3_4.pdf" then some "DATA"
  else none

/-- Instantiation of `sendMessage_preserves_non_temp`: the on-disk `ava/`
avatar cache entry is unchanged by a delivery. -/
theorem sendMessage_preserves_non_temp_witness :
    (sendMessage cfgA (fun _ => true) c10FS
      "https://discord.com/api/webhooks/1/abc" c10Msg).fs
        "/app/ava/777.jpg" = c10FS "/app/ava/777.jpg" :=
  sendMessage_preserves_non_temp cfgA (fun _ => true) c10FS
    "https://discord.com/api/webhooks/1/abc" c10Msg "/app/ava/777.jpg"
    (by decide)

end DiscordForwarder

namespace DiscordForwarder

/-- `String.length` through the underlying character list. -/
theorem strLength_data (s : String) : s.length = s.data.length := by
  cases s
  rfl

/-- A string built by appending `pat` ends with `pat`. -/
theorem strClosesWith_of_data (s pat : String) (l : List Char)
    (h : s.data = l ++ pat.data) : strClosesWith s pat = true := by
  unfold strClosesWith
  rw [h, List.reverse_append]
  exact charsLeadWith_append _ _

/-- Character-level form of `formatMessage` on over-long content. -/
theorem formatMessage_data_of_long (s : String) (h : ¬s.length ≤ 2000) :
    (formatMessage s 2000).data =
      s.data.take 1980 ++ ("\n\n[Message truncated]" : String).data := by
  unfold formatMessage
  rw [if_neg h]
  rfl

/-- A 2001-character content string (2001 repetitions of `'a'`). -/
def c2Content : String := ⟨List.replicate 2001 'a'⟩

/-- Message carrying `c2Content` as its text. -/
def c2Msg : MessageData :=
  { username := some "Carol", avatarUrl := none, content := some c2Content,
    files := [] }

/-- Claim C2, counterexample: for a content string of length 2001 (> 2000)
the dispatcher's delivered content is the unchanged 2001-character string —
not a string of length exactly 2000 — and even the (uninvoked) truncation
helper produces length 2001, so the claim's "delivers a string of length
exactly 2000" is false at this input. -/
theorem sendMessage_truncation_counterexample :
    2000 < c2Content.length ∧
    (sendMessage cfgA (fun _ => true) fsEmpty
      "https://discord.com/api/webhooks/1/abc" c2Msg).payload.content
        = c2Content ∧
    (sendMessage cfgA (fun _ => true) fsEmpty
      "https://discord.com/api/webhooks/1/abc" c2Msg).payload.content.length
        ≠ 2000 ∧
    (formatMessage c2Content 2000).length ≠ 2000 := by
  have hlen : c2Content.length = 2001 := by
    show (List.replicate 2001 'a').length = 2001
    exact List.length_replicate 2001 'a'
  have hpay : (sendMessage cfgA (fun _ => true) fsEmpty
      "https://discord.com/api/webhooks/1/abc" c2Msg).payload.content
        = c2Content := rfl
  refine ⟨by omega, hpay, by rw [hpay]; omega, ?_⟩
  have hd := formatMessage_data_of_long c2Content (by omega)
  have : (formatMessage c2Content 2000).length
      = (c2Content.data.take 1980).length
        + ("\n\n[Message truncated]" : String).data.length := by
    rw [strLength_data, hd, List.length_append]
  rw [this]
  have h1980 : (c2Content.data.take 1980).length = 1980 := by
    rw [List.length_take]
    have : c2Content.data.length = 2001 := hlen
    omega
  rw [h1980]
  decide

/-- Claim C2, amended: the delivery path transmits the content unchanged for
every length (`sendMessage` never calls the truncation helper), and the
helper `formatMessage` itself leaves content of length ≤ 2000 unchanged
while mapping longer content to its first 1980 characters plus the marker
`"\n\n[Message truncated]"` — a string of length exactly 2001 ending with a
visible truncation marker; over-long content is never silently dropped. -/
theorem formatMessage_truncation (cfg : Config) (httpPost : Nat → Bool)
    (fs : FS) (url : String) (m : MessageData) (s : String) :
    (sendMessage cfg httpPost fs url m).payload.content = m.content.getD "" ∧
    (s.length ≤ 2000 → formatMessage s 2000 = s) ∧
    (2000 < s.length →
      (formatMessage s 2000).length = 2001 ∧
      strClosesWith (formatMessage s 2000) "[Message truncated]" = true) := by
  refine ⟨?_, ?_, ?_⟩
  · by_cases h : httpPost 0 <;> simp [sendMessage, mkPayload, h]
  · intro h
    unfold formatMessage
    rw [if_pos h]
  · intro h
    have hn : ¬s.length ≤ 2000 := by omega
    have hd := formatMessage_data_of_long s hn
    constructor
    · rw [strLength_data, hd, List.length_append, List.length_take]
      have hs : s.data.length = s.length := (strLength_data s).symm
      have : ("\n\n[Message truncated]" : String).data.length = 21 := by decide
      omega
    · apply strClosesWith_of_data _ _ (s.data.take 1980 ++ ("\n\n" : String).data)
      rw [hd, List.append_assoc]
      have : ("\n\n[Message truncated]" : String).data
          = ("\n\n" : String).data ++ ("[Message truncated]" : String).data := by
        decide
      rw [this]

/-- Instantiation of `formatMessage_truncation`: short content is returned
unchanged, and the 2001-character `c2Content` is mapped to a 2001-character
string ending in the truncation marker. -/
theorem formatMessage_truncation_witness :
    formatMessage "hello" 2000 = "hello" ∧
    (formatMessage c2Content 2000).length = 2001 ∧
    strClosesWith (formatMessage c2Content 2000) "[Message truncated]"
      = true := by
  refine ⟨?_, ?_, ?_⟩
  · exact (formatMessage_truncation cfgA (fun _ => true) fsEmpty "u" c2Msg
      "hello").2.1 (by decide)
  · exact ((formatMessage_truncation cfgA (fun _ => true) fsEmpty "u" c2Msg
      c2Content).2.2 (by
        show 2000 < (List.replicate 2001 'a').length
        rw [List.length_replicate]
        omega)).1
  · exact ((formatMessage_truncation cfgA (fun _ => true) fsEmpty "u" c2Msg
      c2Content).2.2 (by
        show 2000 < (List.replicate 2001 'a').length
        rw [List.length_replicate]
        omega)).2

end DiscordForwarder

namespace DiscordForwarder

/-- Claim C3, amended: `sendMessage` converts a sender avatar reference that
is an existing local file to a base64 data URI before placing it in the
payload's `avatar_url`; an avatar reference that is not an existing local
file path — in particular any remote URL — is not passed through but
replaced by the default profile picture's data URI when the default exists
on disk, else by `null`. -/
theorem sendMessage_avatar_handling (cfg : Config) (httpPost : Nat → Bool)
    (fs : FS) (url : String) (m : MessageData) (a content : String) :
    (m.avatarUrl = some a → fs a = some content →
      (sendMessage cfg httpPost fs url m).payload.avatar_url =
        some ("data:" ++ getMimeType a ++ ";base64," ++ cfg.b64 content)) ∧
    (m.avatarUrl = some a → fileOnDisk fs a = false →
      (sendMessage cfg httpPost fs url m).payload.avatar_url =
        (if fileOnDisk fs cfg.ppPath then uploadAvatarToDiscord cfg fs cfg.ppPath
         else none)) := by
  have hp : (sendMessage cfg httpPost fs url m).payload = mkPayload cfg fs m := by
    by_cases h : httpPost 0 <;> simp [sendMessage, h]
  constructor
  · intro hav hfs
    rw [hp]
    show prepareAvatar cfg fs m.avatarUrl = _
    rw [hav]
    unfold prepareAvatar
    have hod : fileOnDisk fs a = true := by simp [fileOnDisk, hfs]
    simp only [hod, if_true]
    unfold uploadAvatarToDiscord
    rw [hfs]
  · intro hav hnd
    rw [hp]
    show prepareAvatar cfg fs m.avatarUrl = _
    rw [hav]
    unfold prepareAvatar
    simp only [hnd, Bool.false_eq_true, if_false]

/-- Message whose avatar reference is a remote URL (what
`TelegramBot.extractSenderInfo` produces: a hosted `http://…/ava/…` URL). -/
def c3Msg : MessageData :=
  { username := some "Dave",
    avatarUrl := some "http://localhost:3000/ava/5.jpg",
    content := some "hi", files := [] }

/-- Filesystem holding only the default profile picture. -/
def c3FS : FS := fun p => if p = "/app/img/PP.png" then some "PPBYTES" else none

/-- Claim C3, counterexample: a remote-URL avatar reference is not an
existing local path, so `sendMessage` does not place it in the payload
unchanged — the payload instead carries the default profile picture as a
data URI. -/
theorem sendMessage_remote_avatar_counterexample :
    c3FS "http://localhost:3000/ava/5.jpg" = none ∧
    (sendMessage cfgA (fun _ => true) c3FS
      "https://discord.com/api/webhooks/1/abc" c3Msg).payload.avatar_url
      = some "data:image/png;base64,PPBYTES" ∧
    (sendMessage cfgA (fun _ => true) c3FS
      "https://discord.com/api/webhooks/1/abc" c3Msg).payload.avatar_url
      ≠ some "http://localhost:3000/ava/5.jpg" := by
  refine ⟨rfl, by decide, by decide⟩

/-- Message whose avatar reference is a local temp file. -/
def c3LocalMsg : MessageData :=
  { username := some "Erin", avatarUrl := some "/app/temp/av_9.png",
    content := some "yo", files := [] }

/-- Filesystem holding that local avatar file. -/
def c3LocalFS : FS :=
  fun p => if p = "/app/temp/av_9.png" then some "AVBYTES" else none

/-- Instantiation of `sendMessage_avatar_handling`: an existing local avatar
file is delivered as a base64 data URI. -/
theorem sendMessage_avatar_handling_witness :
    (sendMessage cfgA (fun _ => true) c3LocalFS
      "https://discord.com/api/webhooks/1/abc" c3LocalMsg).payload.avatar_url
      = some ("data:" ++ getMimeType "/app/temp/av_9.png" ++ ";base64," ++
          cfgA.b64 "AVBYTES") :=
  (sendMessage_avatar_handling cfgA (fun _ => true) c3LocalFS
    "https://discord.com/api/webhooks/1/abc" c3LocalMsg "/app/temp/av_9.png"
    "AVBYTES").1 rfl (by decide)

/-- The retry loop runs at most `r` attempts. -/
theorem retryGo_attempts_le (request : Nat → Bool) (a r : Nat) :
    (retryGo request a r).attemptsUsed ≤ r := by
  induction r generalizing a with
  | zero => simp [retryGo]
  | succ r ih =>
    unfold retryGo
    by_cases h : request a
    · simp [h]
    · by_cases hr : r = 0
      · simp [h, hr]
      · simp only [h, hr, Bool.false_eq_true, if_false]
        exact Nat.succ_le_succ (ih (a + 1))

/-- Each wait inserted by the retry loop is `retryDelay` times the 1-based
number of the attempt that just failed. -/
theorem retryGo_delays_linear (request : Nat → Bool) (r : Nat) :
    ∀ a k d, (retryGo request a r).delays.get? k = some d →
      d = retryDelay * (a + 1 + k) := by
  induction r with
  | zero => intro a k d h; simp [retryGo] at h
  | succ r ih =>
    intro a k d h
    unfold retryGo at h
    by_cases hreq : request a
    · simp [hreq] at h
    · by_cases hr : r = 0
      · simp [hreq, hr] at h
      · simp only [hreq, hr, Bool.false_eq_true, if_false] at h
        cases k with
        | zero =>
          simp only [List.get?_cons_zero, Option.some.injEq] at h
          unfold retryDelay at h ⊢
          omega
        | succ k =>
          simp only [List.get?_cons_succ] at h
          have := ih (a + 1) k d h
          unfold retryDelay at this ⊢
          omega

/-- Claim C8, amended: `retryRequest` retries a bounded number of times
(`maxRetries` = 3) with linearly increasing backoff (`retryDelay` times the
attempt number), but the delivery path does not invoke it: the outcome of
`sendMessage` depends only on the first webhook request, so a transient
failure on the single attempt surfaces immediately as a per-message delivery
failure. -/
theorem retryRequest_bounded_linear_unused (request o2 : Nat → Bool)
    (k d : Nat) (cfg : Config) (fs : FS) (url : String) (m : MessageData) :
    (retryRequest request).attemptsUsed ≤ maxRetries ∧
    ((retryRequest request).delays.get? k = some d →
      d = retryDelay * (k + 1)) ∧
    (request 0 = o2 0 →
      (sendMessage cfg request fs url m).result
        = (sendMessage cfg o2 fs url m).result) := by
  refine ⟨retryGo_attempts_le request 0 maxRetries, ?_, ?_⟩
  · intro h
    have := retryGo_delays_linear request maxRetries 0 k d h
    unfold retryDelay at this ⊢
    omega
  · intro h
    unfold sendMessage
    rw [h]

/-- HTTP oracle that fails the first request and succeeds afterwards. -/
def c8Request : Nat → Bool := fun i => decide (1 ≤ i)

/-- Text-only message for the retry counterexample. -/
def c8Msg : MessageData :=
  { username := none, avatarUrl := none, content := some "hello", files := [] }

/-- Claim C8, counterexample: with a webhook that fails once and then
succeeds, a delivery routed through `retryRequest` would succeed, but
`sendMessage` — the actual delivery path — throws after its single attempt:
the bounded retry is not applied to failed webhook requests. -/
theorem sendMessage_no_retry_counterexample :
    c8Request 0 = false ∧ c8Request 1 = true ∧
    (retryRequest c8Request).ok = true ∧
    (sendMessage cfgA c8Request fsEmpty
      "https://discord.com/api/webhooks/1/abc" c8Msg).result
      = Except.error "Discord API returned status" := by
  refine ⟨rfl, rfl, by decide, rfl⟩

/-- Instantiation of `retryRequest_bounded_linear_unused` on the
always-failing oracle: at most three attempts, first backoff wait is
`retryDelay * 1` = 2000 ms, and the delivery outcome matches that of any
oracle agreeing on the first request. -/
theorem retryRequest_bounded_linear_unused_witness :
    (retryRequest (fun _ => false)).attemptsUsed ≤ maxRetries ∧
    (2000 : Nat) = retryDelay * (0 + 1) ∧
    (sendMessage cfgA (fun _ => false) fsEmpty "u" c8Msg).result
      = (sendMessage cfgA (fun _ => false) fsEmpty "u" c8Msg).result := by
  have t := retryRequest_bounded_linear_unused (fun _ => false) (fun _ => false)
    0 2000 cfgA fsEmpty "u" c8Msg
  exact ⟨t.1, t.2.1 (by decide), t.2.2 rfl⟩

end DiscordForwarder

/-! ## src/lib/image-processor.js — `ImageProcessor`

The sharp image library is external; its calls are abstracted as the
`SharpOps` oracle record (each returns `none` where the library call would
throw).  JS numbers are IEEE doubles; the geometry arithmetic of
`processImage` is embedded over exact rationals with `0.2` and `0.4` as
`2/10` and `4/10` — on the small integer dimensions involved the two agree
on every stated bound and on the counterexample below. -/

namespace ImageProcessor

/-- `sharp(x).metadata()`. -/
structure ImgMeta where
  width : Nat
  height : Nat
  format : String
deriving DecidableEq, Repr

/-- `this.watermarkCache` as filled by `loadWatermark`. -/
structure WatermarkCache where
  buffer : String
  width : Nat
  height : Nat
deriving DecidableEq, Repr

/-- `this.supportedFormats`. -/
def supportedFormats : List String := ["jpeg", "jpg", "png", "webp", "gif"]

/-- `this.maxImageSize = 8 * 1024 * 1024`. -/
def maxImageSize : Nat := 8 * 1024 * 1024

/-- Oracles for the sharp library calls the processor makes. -/
structure SharpOps where
  meta : String → Option ImgMeta
  resizePng : String → ℚ → Int → Option String
  compositeJpeg : String → String → Int → Int → Option String
  jpegAt : String → Nat → Option String
  resizeJpegToFile : String → Nat → Nat → Nat → Option String

/-- The watermark geometry computed by `processImage` lines 74–87. -/
structure Geometry where
  watermarkWidth : Int
  watermarkHeight : Int
  maxWatermarkSize : ℚ
  finalWatermarkWidth : ℚ
  finalWatermarkHeight : Int
  left : Int
  top : Int
deriving DecidableEq, Repr

/-- Lines 74–87 of `processImage`: 20%-of-width scaling, the
`Math.min(width*0.4, height*0.4)` cap applied to the width, aspect-derived
height, and centered placement, for host dimensions `w × h` and watermark
dimensions `cw × ch`. -/
def watermarkGeometry (w h cw ch : Nat) : Geometry :=
  let watermarkWidth : Int := Int.floor ((w : ℚ) * (2/10))
  let watermarkHeight : Int :=
    Int.floor ((watermarkWidth : ℚ) * (ch : ℚ) / (cw : ℚ))
  let maxWatermarkSize : ℚ := min ((w : ℚ) * (4/10)) ((h : ℚ) * (4/10))
  let finalWatermarkWidth : ℚ := min (watermarkWidth : ℚ) maxWatermarkSize
  let finalWatermarkHeight : Int :=
    Int.floor (finalWatermarkWidth * (ch : ℚ) / (cw : ℚ))
  { watermarkWidth := watermarkWidth
    watermarkHeight := watermarkHeight
    maxWatermarkSize := maxWatermarkSize
    finalWatermarkWidth := finalWatermarkWidth
    finalWatermarkHeight := finalWatermarkHeight
    left := Int.floor (((w : ℚ) - finalWatermarkWidth) / 2)
    top := Int.floor (((h : ℚ) - (finalWatermarkHeight : ℚ)) / 2) }

/-- The `composite([...])` invocation performed at lines 99–107. -/
structure CompositeCall where
  left : Int
  top : Int
  blend : String
  resizeWidth : ℚ
  resizeHeight : Int
deriving DecidableEq, Repr

/-- Outcome of `processImage`: the returned path, the filesystem afterwards,
and the composite call that was performed (if the code reached it). -/
structure ProcessOutcome where
  path : String
  fs : FS
  composite : Option CompositeCall

/-- `path.basename(p, ext)`: the basename with the suffix `ext` stripped. -/
def pathBasenameWithout (p ext : String) : String :=
  let b := pathBasename p
  if strClosesWith b ext then ⟨b.data.take (b.data.length - ext.data.length)⟩
  else b

/-- Output-path generation of `processImage` lines 52–57:
`path.join(dir, name + "_watermarked" + ext)`. -/
def defaultOutputPath (inputPath : String) : String :=
  let dir := pathDirname inputPath
  let ext := pathExtname inputPath
  let name := pathBasenameWithout inputPath ext
  pathJoin dir (name ++ "_watermarked" ++ ext)

/-- The output path actually used: the argument when given, else generated. -/
def outPathOf (inputPath : String) (outputPathArg : Option String) : String :=
  match outputPathArg with
  | some o => o
  | none => defaultOutputPath inputPath

/-- The `try` body of `processImage` (lines 50–122): `error` is any thrown
error (missing input, metadata failure, null watermark cache dereference,
resize/composite/re-encode failure); `ok` carries the returned path, the
filesystem and the composite call (absent on the early unsupported-format
return). -/
def processImageBody (ops : SharpOps) (wc : Option WatermarkCache) (fs : FS)
    (inputPath outputPath : String) : Except Unit ProcessOutcome :=
  if ¬fileOnDisk fs inputPath then .error ()
  else
    match ops.meta inputPath with
    | none => .error ()
    | some md =>
      if ¬supportedFormats.contains (jsToLower md.format) then
        .ok { path := inputPath, fs := fs, composite := none }
      else
        match wc with
        | none => .error ()
        | some cache =>
          let g := watermarkGeometry md.width md.height cache.width cache.height
          match ops.resizePng cache.buffer g.finalWatermarkWidth
              g.finalWatermarkHeight with
          | none => .error ()
          | some resized =>
            match ops.compositeJpeg inputPath resized g.left g.top with
            | none => .error ()
            | some processed =>
              let call : CompositeCall :=
                { left := g.left, top := g.top, blend := "over",
                  resizeWidth := g.finalWatermarkWidth,
                  resizeHeight := g.finalWatermarkHeight }
              if processed.length > maxImageSize then
                match ops.jpegAt processed 70 with
                | none => .error ()
                | some compressed =>
                  .ok { path := outputPath,
                        fs := fsWrite fs outputPath compressed,
                        composite := some call }
              else
                .ok { path := outputPath,
                      fs := fsWrite fs outputPath processed,
                      composite := some call }

/-- `ImageProcessor.processImage`: the body's catch returns the original
input path with the filesystem unchanged. -/
def processImage (ops : SharpOps) (wc : Option WatermarkCache) (fs : FS)
    (inputPath : String) (outputPathArg : Option String) : ProcessOutcome :=
  match processImageBody ops wc fs inputPath (outPathOf inputPath outputPathArg) with
  | .ok r => r
  | .error _ => { path := inputPath, fs := fs, composite := none }

/-- `ImageProcessor.optimizeImage(inputPath, maxWidth, maxHeight, quality)`:
returns the input path unchanged when the image already fits or on any
error, else writes the re-encoded image to the `_optimized` output path. -/
def optimizeImage (ops : SharpOps) (fs : FS) (inputPath : String)
    (maxWidth maxHeight quality : Nat) : FS × String :=
  match ops.meta inputPath with
  | none => (fs, inputPath)
  | some md =>
    if md.width ≤ maxWidth ∧ md.height ≤ maxHeight then (fs, inputPath)
    else
      let ext := pathExtname inputPath
      let outputPath := jsReplaceFirst inputPath ext ("_optimized" ++ ext)
      match ops.resizeJpegToFile inputPath maxWidth maxHeight quality with
      | none => (fs, inputPath)
      | some content => (fsWrite fs outputPath content, outputPath)

end ImageProcessor

namespace ImageProcessor

/-- Claim C6: if watermark compositing fails — the watermark cache is
missing (null dereference), the input or its metadata is unreadable, or any
sharp resize/composite/re-encode step throws — `processImage` fails closed:
it returns the original unwatermarked input path with the filesystem
unchanged instead of propagating the error, so the message is still
delivered without the watermark. -/
theorem processImage_fail_closed (ops : SharpOps) (wc : Option WatermarkCache)
    (fs : FS) (inputPath : String) (outArg : Option String) (md : ImgMeta) :
    (processImageBody ops wc fs inputPath (outPathOf inputPath outArg)
        = .error () →
      processImage ops wc fs inputPath outArg =
        { path := inputPath, fs := fs, composite := none }) ∧
    (wc = none → fileOnDisk fs inputPath = true →
      ops.meta inputPath = some md →
      supportedFormats.contains (jsToLower md.format) = true →
      processImage ops wc fs inputPath outArg =
        { path := inputPath, fs := fs, composite := none }) := by
  constructor
  · intro h
    unfold processImage
    rw [h]
  · intro hwc hf hmd hs
    subst hwc
    unfold processImage
    have hb : processImageBody ops none fs inputPath
        (outPathOf inputPath outArg) = .error () := by
      unfold processImageBody
      simp only [hf, hmd, hs, not_true_eq_false, if_false,
        Bool.not_eq_true]
    rw [hb]

/-- Sharp oracle for the C6 instantiation: everything succeeds. -/
def c6Ops : SharpOps :=
  { meta := fun _ => some { width := 100, height := 100, format := "jpeg" },
    resizePng := fun _ _ _ => some "RW",
    compositeJpeg := fun _ _ _ _ => some "PROC",
    jpegAt := fun _ _ => some "CMP",
    resizeJpegToFile := fun _ _ _ _ => some "OPT" }

/-- Filesystem holding the C6 input image. -/
def c6FS : FS := fun p => if p = "/app/temp/in.jpg" then some "IMG" else none

/-- Instantiation of `processImage_fail_closed` with a missing watermark
cache: the original path comes back and the filesystem is untouched. -/
theorem processImage_fail_closed_witness :
    processImage c6Ops none c6FS "/app/temp/in.jpg" none =
      { path := "/app/temp/in.jpg", fs := c6FS, composite := none } :=
  (processImage_fail_closed c6Ops none c6FS "/app/temp/in.jpg" none
    { width := 100, height := 100, format := "jpeg" }).2
    rfl (by decide) rfl (by decide)

/-- Whenever `processImage` performed a composite call, that call is exactly
the one determined by `watermarkGeometry` on the input's metadata and the
cached watermark's dimensions, with the `"over"` blend. -/
theorem processImageBody_composite_eq (ops : SharpOps)
    (cache : WatermarkCache) (fs : FS) (input out : String)
    (r : ProcessOutcome) (c : CompositeCall) (md : ImgMeta)
    (hb : processImageBody ops (some cache) fs input out = .ok r)
    (hc : r.composite = some c) (hmd : ops.meta input = some md) :
    c = { left := (watermarkGeometry md.width md.height cache.width
            cache.height).left,
          top := (watermarkGeometry md.width md.height cache.width
            cache.height).top,
          blend := "over",
          resizeWidth := (watermarkGeometry md.width md.height cache.width
            cache.height).finalWatermarkWidth,
          resizeHeight := (watermarkGeometry md.width md.height cache.width
            cache.height).finalWatermarkHeight } := by
  unfold processImageBody at hb
  simp only [hmd] at hb
  by_cases hf : fileOnDisk fs input
  · simp only [hf, not_true_eq_false, if_false] at hb
    by_cases hs : supportedFormats.contains (jsToLower md.format)
    · simp only [hs, not_true_eq_false, if_false] at hb
      cases hr : ops.resizePng cache.buffer
          (watermarkGeometry md.width md.height cache.width
            cache.height).finalWatermarkWidth
          (watermarkGeometry md.width md.height cache.width
            cache.height).finalWatermarkHeight with
      | none => simp only [hr] at hb; cases hb
      | some resized =>
        simp only [hr] at hb
        cases hcj : ops.compositeJpeg input resized
            (watermarkGeometry md.width md.height cache.width
              cache.height).left
            (watermarkGeometry md.width md.height cache.width
              cache.height).top with
        | none => simp only [hcj] at hb; cases hb
        | some processed =>
          simp only [hcj] at hb
          by_cases hlen : processed.length > maxImageSize
          · rw [if_pos hlen] at hb
            cases hj : ops.jpegAt processed 70 with
            | none => simp only [hj] at hb; cases hb
            | some compressed =>
              simp only [hj] at hb
              cases hb
              simp only [Option.some.injEq] at hc
              exact hc.symm
          · rw [if_neg hlen] at hb
            cases hb
            simp only [Option.some.injEq] at hc
            exact hc.symm
    · simp only [hs, not_false_eq_true, if_true] at hb
      cases hb
      simp at hc
  · simp only [hf] at hb
    simp at hb

end ImageProcessor

namespace ImageProcessor

/-- Claim C5, amended: watermark compositing is a pure function of the host
and watermark dimensions, so repeated invocation on the same inputs yields
the same output geometry by construction; the watermark width is scaled to
20% of the host width and capped by `min(40% host width, 40% host height)`
— the 40% cap is applied to the width only — the height is derived from the
watermark's aspect ratio (it is not capped and may exceed 40% of the host
height, see the counterexample), placement is the floored centered midpoint,
and every composite call `processImage` performs is exactly the one
`watermarkGeometry` determines, with the `"over"` blend. -/
theorem processImage_watermark_geometry (ops : SharpOps)
    (cache : WatermarkCache) (fs : FS) (inputPath : String)
    (outArg : Option String) (c : CompositeCall) (md : ImgMeta)
    (w h cw ch : Nat) :
    ((watermarkGeometry w h cw ch).watermarkWidth
        = Int.floor ((w : ℚ) * (2/10)) ∧
     (watermarkGeometry w h cw ch).finalWatermarkWidth ≤ (w : ℚ) * (4/10) ∧
     (watermarkGeometry w h cw ch).finalWatermarkWidth ≤ (h : ℚ) * (4/10) ∧
     (watermarkGeometry w h cw ch).finalWatermarkWidth
        ≤ ((watermarkGeometry w h cw ch).watermarkWidth : ℚ) ∧
     (watermarkGeometry w h cw ch).finalWatermarkHeight
        = Int.floor ((watermarkGeometry w h cw ch).finalWatermarkWidth
            * (ch : ℚ) / (cw : ℚ)) ∧
     (watermarkGeometry w h cw ch).left
        = Int.floor (((w : ℚ)
            - (watermarkGeometry w h cw ch).finalWatermarkWidth) / 2) ∧
     (watermarkGeometry w h cw ch).top
        = Int.floor (((h : ℚ)
            - ((watermarkGeometry w h cw ch).finalWatermarkHeight : ℚ)) / 2)) ∧
    ((processImage ops (some cache) fs inputPath outArg).composite = some c →
      ops.meta inputPath = some md →
      c = { left := (watermarkGeometry md.width md.height cache.width
              cache.height).left,
            top := (watermarkGeometry md.width md.height cache.width
              cache.height).top,
            blend := "over",
            resizeWidth := (watermarkGeometry md.width md.height cache.width
              cache.height).finalWatermarkWidth,
            resizeHeight := (watermarkGeometry md.width md.height cache.width
              cache.height).finalWatermarkHeight }) := by
  constructor
  · refine ⟨rfl, ?_, ?_, ?_, rfl, rfl, rfl⟩
    · simp only [watermarkGeometry]
      exact le_trans (min_le_right _ _) (min_le_left _ _)
    · simp only [watermarkGeometry]
      exact le_trans (min_le_right _ _) (min_le_right _ _)
    · simp only [watermarkGeometry]
      exact min_le_left _ _
  · intro hcomp hmd
    unfold processImage at hcomp
    cases hb : processImageBody ops (some cache) fs inputPath
        (outPathOf inputPath outArg) with
    | error e =>
      rw [hb] at hcomp
      simp at hcomp
    | ok r =>
      rw [hb] at hcomp
      exact processImageBody_composite_eq ops cache fs inputPath _ r c md hb
        hcomp hmd

/-- Sharp oracle for the C5 instantiation: 100×100 JPEG host image,
all encoding steps succeed. -/
def c5Ops : SharpOps :=
  { meta := fun p =>
      if p = "/app/temp/in.jpg" then
        some { width := 100, height := 100, format := "jpeg" }
      else none,
    resizePng := fun _ _ _ => some "RW",
    compositeJpeg := fun _ _ _ _ => some "PROC",
    jpegAt := fun _ _ => some "CMP",
    resizeJpegToFile := fun _ _ _ _ => some "OPT" }

/-- A 10×100 (tall) watermark cache. -/
def c5Cache : WatermarkCache := { buffer := "WM", width := 10, height := 100 }

/-- Filesystem with the C5 host image. -/
def c5FS : FS := fun p => if p = "/app/temp/in.jpg" then some "IMG" else none

/-- The composite call the code performs on these inputs. -/
def c5Call : CompositeCall :=
  { left := 40, top := -50, blend := "over", resizeWidth := 20,
    resizeHeight := 200 }

/-- Concrete evaluation of the geometry on a 100×100 host with a 10×100
(tall) watermark. -/
theorem c5_geometry_eval :
    watermarkGeometry 100 100 10 100 =
      { watermarkWidth := 20, watermarkHeight := 200, maxWatermarkSize := 40,
        finalWatermarkWidth := 20, finalWatermarkHeight := 200,
        left := 40, top := -50 } := by
  unfold watermarkGeometry
  norm_num [min_def]

/-- The composite call the concrete C5 run performs. -/
theorem c5_run_composite :
    (processImage c5Ops (some c5Cache) c5FS "/app/temp/in.jpg" none).composite
      = some c5Call := by
  have h0 : (processImage c5Ops (some c5Cache) c5FS
      "/app/temp/in.jpg" none).composite
      = some { left := (watermarkGeometry 100 100 10 100).left,
               top := (watermarkGeometry 100 100 10 100).top,
               blend := "over",
               resizeWidth :=
                 (watermarkGeometry 100 100 10 100).finalWatermarkWidth,
               resizeHeight :=
                 (watermarkGeometry 100 100 10 100).finalWatermarkHeight } :=
    rfl
  rw [c5_geometry_eval] at h0
  simpa using h0

/-- Claim C5, counterexample: for a 100×100 host and a 10×100 watermark the
computed watermark height is 200 — more than 40% of the host height (40) and
even taller than the host itself — so "neither watermark dimension exceeds
40% of the corresponding host dimension" is false; `processImage` performs
exactly this composite call. -/
theorem watermark_height_cap_counterexample :
    ((100 : ℚ) * (4/10)) = 40 ∧
    (watermarkGeometry 100 100 10 100).finalWatermarkHeight = 200 ∧
    ¬((watermarkGeometry 100 100 10 100).finalWatermarkHeight ≤ 40) ∧
    (processImage c5Ops (some c5Cache) c5FS "/app/temp/in.jpg" none).composite
      = some c5Call := by
  refine ⟨by norm_num, ?_, ?_, c5_run_composite⟩
  · rw [c5_geometry_eval]
  · rw [c5_geometry_eval]
    decide

/-- Instantiation of `processImage_watermark_geometry` on the concrete C5
run: the performed composite call is the geometry-determined one. -/
theorem processImage_watermark_geometry_witness :
    c5Call = { left := (watermarkGeometry 100 100 10 100).left,
               top := (watermarkGeometry 100 100 10 100).top,
               blend := "over",
               resizeWidth :=
                 (watermarkGeometry 100 100 10 100).finalWatermarkWidth,
               resizeHeight :=
                 (watermarkGeometry 100 100 10 100).finalWatermarkHeight } :=
  (processImage_watermark_geometry c5Ops c5Cache c5FS "/app/temp/in.jpg" none
    c5Call { width := 100, height := 100, format := "jpeg" } 1 1 1 1).2
    c5_run_composite rfl

end ImageProcessor

/-! ## src/lib/media-handler.js — `MediaHandler.compressImage`

The `while (quality > 20)` loop decrements `quality` by 15 each iteration,
so from the start value 85 it runs at most 5 iterations; the structural
`fuel` argument is seeded with the start quality (85), which therefore never
binds before the quality guard exits the loop. -/

namespace MediaHandler

/-- `this.maxFileSize = 25 * 1024 * 1024` (Discord upload ceiling). -/
def maxFileSize : Nat := 25 * 1024 * 1024

/-- The record returned by the media-processing methods. -/
structure MediaResult where
  type : String
  originalPath : String
  processedPath : String
  name : String
  size : Nat
deriving DecidableEq, Repr

/-- State after the compression loop: the filesystem, the
`(outputPath, quality)` pair when a small-enough encoding was found, and the
list of qualities attempted. -/
structure CompressLoopOut where
  fs : FS
  found : Option (String × Nat)
  tried : List Nat

/-- The `while (quality > 20)` loop of `compressImage` (lines 136–155):
each iteration forms a fresh temp path (`Date.now()` modelled by the
increasing counter `now`), runs `ImageProcessor.optimizeImage` at bounded
resolution 1920×1080, then `fs.stat`s the temp path — a missing file throws
and lands in `compressImage`'s catch, which returns `null` — keeps the file
when its size is within `targetSize`, else unlinks it and retries 15
quality points lower. -/
def compressLoop (ops : ImageProcessor.SharpOps) (tempDir filePath : String)
    (messageId targetSize : Nat) :
    FS → Nat → Nat → Nat → CompressLoopOut
  | fs, _, 0, _ => { fs := fs, found := none, tried := [] }
  | fs, now, fuel + 1, quality =>
    if 20 < quality then
      let tempPath := pathJoin tempDir
        ("compressed_" ++ toString messageId ++ "_" ++ toString now ++ ".jpg")
      let fs1 := (ImageProcessor.optimizeImage ops fs filePath 1920 1080
        quality).1
      match fs1 tempPath with
      | none => { fs := fs1, found := none, tried := [quality] }
      | some content =>
        if content.length ≤ targetSize then
          { fs := fs1, found := some (tempPath, quality), tried := [quality] }
        else
          let rest := compressLoop ops tempDir filePath messageId targetSize
            (fsUnlink fs1 tempPath) (now + 1) fuel (quality - 15)
          { fs := rest.fs, found := rest.found,
            tried := quality :: rest.tried }
    else { fs := fs, found := none, tried := [] }

/-- `MediaHandler.compressImage(filePath, messageId, targetSize = 8 MB)`:
runs the loop from quality 85 and, when an encoding was kept, re-`stat`s it
and returns the `MediaResult`; otherwise (quality floor reached, or the
`stat` inside the loop threw) returns `null`. -/
def compressImage (ops : ImageProcessor.SharpOps) (tempDir : String)
    (fs : FS) (filePath : String) (messageId now targetSize : Nat) :
    FS × Option MediaResult :=
  let out := compressLoop ops tempDir filePath messageId targetSize fs now 85 85
  match out.found with
  | none => (out.fs, none)
  | some (outputPath, _) =>
    match out.fs outputPath with
    | none => (out.fs, none)
    | some c =>
      let result : MediaResult :=
        { originalPath := filePath, processedPath := outputPath,
          name := pathBasename outputPath, size := c.length, type := "image" }
      (out.fs, some result)

/-- When the loop reports a kept encoding, that file is on the final
filesystem and its size is within the target. -/
theorem compressLoop_found_size (ops : ImageProcessor.SharpOps)
    (tempDir filePath : String) (messageId targetSize : Nat) :
    ∀ fuel fs now quality p q,
      (compressLoop ops tempDir filePath messageId targetSize fs now fuel
        quality).found = some (p, q) →
      ∃ c, (compressLoop ops tempDir filePath messageId targetSize fs now fuel
        quality).fs p = some c ∧ c.length ≤ targetSize := by
  intro fuel
  induction fuel with
  | zero => intro fs now quality p q h; simp [compressLoop] at h
  | succ fuel ih =>
    intro fs now quality p q h
    unfold compressLoop at h ⊢
    by_cases hq : 20 < quality
    · rw [if_pos hq] at h ⊢
      cases hst : (ImageProcessor.optimizeImage ops fs filePath 1920 1080
          quality).1 (pathJoin tempDir
            ("compressed_" ++ toString messageId ++ "_" ++ toString now
              ++ ".jpg")) with
      | none => simp only [hst] at h; cases h
      | some content =>
        simp only [hst] at h ⊢
        by_cases hle : content.length ≤ targetSize
        · rw [if_pos hle] at h ⊢
          simp only [Option.some.injEq, Prod.mk.injEq] at h
          rcases h with ⟨hp, hq2⟩
          subst hp
          exact ⟨content, by simp [hst], hle⟩
        · rw [if_neg hle] at h ⊢
          exact ih _ _ _ p q h
    · rw [if_neg hq] at h
      simp at h

/-- Every quality the loop attempts lies on the schedule: above the floor
20, at most the start value, and a whole number of 15-steps below it. -/
theorem compressLoop_tried_schedule (ops : ImageProcessor.SharpOps)
    (tempDir filePath : String) (messageId targetSize : Nat) :
    ∀ fuel fs now quality q,
      q ∈ (compressLoop ops tempDir filePath messageId targetSize fs now fuel
        quality).tried →
      20 < q ∧ q ≤ quality ∧ (quality - q) % 15 = 0 := by
  intro fuel
  induction fuel with
  | zero => intro fs now quality q h; simp [compressLoop] at h
  | succ fuel ih =>
    intro fs now quality q h
    unfold compressLoop at h
    by_cases hq : 20 < quality
    · rw [if_pos hq] at h
      cases hst : (ImageProcessor.optimizeImage ops fs filePath 1920 1080
          quality).1 (pathJoin tempDir
            ("compressed_" ++ toString messageId ++ "_" ++ toString now
              ++ ".jpg")) with
      | none =>
        simp only [hst, List.mem_singleton] at h
        subst h
        exact ⟨hq, le_refl q, by simp⟩
      | some content =>
        simp only [hst] at h
        by_cases hle : content.length ≤ targetSize
        · rw [if_pos hle] at h
          simp only [List.mem_singleton] at h
          subst h
          exact ⟨hq, le_refl q, by simp⟩
        · rw [if_neg hle] at h
          simp only [List.mem_cons] at h
          rcases h with h | h
          · subst h
            exact ⟨hq, le_refl q, by simp⟩
          · rcases ih _ _ _ q h with ⟨h1, h2, h3⟩
            refine ⟨h1, by omega, by omega⟩
    · rw [if_neg hq] at h
      simp at h

/-- Claim C4: the compression step attempts qualities on the schedule
start 85, step −15, floor 20, at resolution bounded by 1920×1080 (the
`optimizeImage` arguments in `compressLoop`), and whenever it returns an
artifact at all, that artifact's size is within the 8 MB target ceiling —
hence never above the 25 MB upload ceiling; otherwise the attachment is
dropped (`null`). -/
theorem compressImage_never_oversized (ops : ImageProcessor.SharpOps)
    (tempDir : String) (fs : FS) (filePath : String)
    (messageId now targetSize : Nat) (a : MediaResult) (q : Nat) :
    ((compressImage ops tempDir fs filePath messageId now targetSize).2
        = some a →
      a.size ≤ targetSize ∧
      (targetSize = 8 * 1024 * 1024 → a.size ≤ maxFileSize)) ∧
    (q ∈ (compressLoop ops tempDir filePath messageId targetSize fs now 85
        85).tried →
      20 < q ∧ q ≤ 85 ∧ (85 - q) % 15 = 0) := by
  constructor
  · intro h
    unfold compressImage at h
    cases hf : (compressLoop ops tempDir filePath messageId targetSize fs now
        85 85).found with
    | none => simp only [hf] at h; cases h
    | some pq =>
      obtain ⟨p, qq⟩ := pq
      simp only [hf] at h
      rcases compressLoop_found_size ops tempDir filePath messageId targetSize
        85 fs now 85 p qq hf with ⟨c, hc, hcle⟩
      rw [hc] at h
      simp only [Option.some.injEq] at h
      subst h
      refine ⟨hcle, fun ht => ?_⟩
      show c.length ≤ maxFileSize
      unfold maxFileSize
      omega
  · exact compressLoop_tried_schedule ops tempDir filePath messageId
      targetSize 85 fs now 85 q

end MediaHandler

namespace MediaHandler

/-- Sharp oracle for the C4 instantiation (every sharp call fails, so
`optimizeImage` leaves the filesystem unchanged). -/
def c4Ops : ImageProcessor.SharpOps :=
  { meta := fun _ => none, resizePng := fun _ _ _ => none,
    compositeJpeg := fun _ _ _ _ => none, jpegAt := fun _ _ => none,
    resizeJpegToFile := fun _ _ _ _ => none }

/-- Filesystem for the C4 instantiation: the oversized input plus a
1-byte file already sitting at the first temp path the loop will probe. -/
def c4FS : FS := fun p =>
  if p = "/app/temp/compressed_7_0.jpg" then some "X"
  else if p = "/app/temp/big.jpg" then some "BIGIMAGE" else none

/-- The artifact that concrete run returns. -/
def c4Res : MediaResult :=
  { originalPath := "/app/temp/big.jpg",
    processedPath := "/app/temp/compressed_7_0.jpg",
    name := "compressed_7_0.jpg", size := 1, type := "image" }

/-- Instantiation of `compressImage_never_oversized` on a run that returns
an artifact: its size is within both ceilings, and the attempted quality 85
is on the schedule. -/
theorem compressImage_never_oversized_witness :
    (c4Res.size ≤ 8 * 1024 * 1024 ∧
      (8 * 1024 * 1024 = 8 * 1024 * 1024 → c4Res.size ≤ maxFileSize)) ∧
    (20 < 85 ∧ 85 ≤ 85 ∧ (85 - 85) % 15 = 0) := by
  have t := compressImage_never_oversized c4Ops "/app/temp" c4FS
    "/app/temp/big.jpg" 7 0 (8 * 1024 * 1024) c4Res 85
  exact ⟨t.1 (by decide), t.2 (by decide)⟩

end MediaHandler

/-! ## src/lib/telegram-client.js — `TelegramBot.handleReconnect`

`handleReconnect` exits the process once `reconnectAttempts` has reached
`maxReconnectAttempts`; otherwise it increments the counter, waits the fixed
`reconnectDelay`, and re-runs `init`, whose failure path calls
`handleReconnect` again with the incremented counter.  Since the loop exits
exactly when `attempts ≥ maxReconnectAttempts`, the recursion is structural
on `remaining = maxReconnectAttempts - attempts`.  The success of the k-th
`init` attempt is the oracle `initOk k`. -/

namespace TelegramBot

/-- `this.maxReconnectAttempts = 10`. -/
def maxReconnectAttempts : Nat := 10

/-- `this.reconnectDelay = 5000` (fixed, not exponential). -/
def reconnectDelay : Nat := 5000

/-- Terminal outcome of the reconnect recursion: `connected` carries the
counter value after success (`this.reconnectAttempts = 0`), the number of
attempts made and the waits inserted; `exhausted` is the `process.exit(1)`
path. -/
inductive SupervisorOutcome where
  | connected (counterAfter attemptsMade : Nat) (delays : List Nat)
  | exhausted (attemptsMade : Nat) (delays : List Nat)
deriving DecidableEq, Repr

/-- The reconnect recursion with `remaining` attempts left before the bound:
each attempt waits `reconnectDelay` then runs `init`; success resets the
counter to zero, failure recurses with one less remaining attempt;
`remaining = 0` is the `process.exit(1)` branch. -/
def reconnectLoop (initOk : Nat → Bool) (idx : Nat) :
    Nat → SupervisorOutcome
  | 0 => .exhausted 0 []
  | r + 1 =>
    if initOk idx then .connected 0 1 [reconnectDelay]
    else
      match reconnectLoop initOk (idx + 1) r with
      | .connected cA m ds => .connected cA (m + 1) (reconnectDelay :: ds)
      | .exhausted m ds => .exhausted (m + 1) (reconnectDelay :: ds)

/-- `TelegramBot.handleReconnect` entered with the counter at `attempts`. -/
def handleReconnect (initOk : Nat → Bool) (idx attempts : Nat) :
    SupervisorOutcome :=
  reconnectLoop initOk idx (maxReconnectAttempts - attempts)

/-- A successful run resets the counter to zero and waited the fixed delay
once per attempt made. -/
theorem reconnectLoop_connected (initOk : Nat → Bool) :
    ∀ r idx cA m ds, reconnectLoop initOk idx r = .connected cA m ds →
      cA = 0 ∧ ds = List.replicate m reconnectDelay := by
  intro r
  induction r with
  | zero => intro idx cA m ds h; simp [reconnectLoop] at h
  | succ r ih =>
    intro idx cA m ds h
    unfold reconnectLoop at h
    by_cases hk : initOk idx
    · rw [if_pos hk] at h
      cases h
      exact ⟨rfl, rfl⟩
    · rw [if_neg hk] at h
      cases hrec : reconnectLoop initOk (idx + 1) r with
      | connected cA2 m2 ds2 =>
        rw [hrec] at h
        rcases ih (idx + 1) cA2 m2 ds2 hrec with ⟨h1, h2⟩
        injection h with e1 e2 e3
        subst e1
        subst e2
        subst e3
        exact ⟨h1, by rw [h2, List.replicate_succ]⟩
      | exhausted m2 ds2 =>
        rw [hrec] at h
        cases h

/-- An exhausted run made exactly `remaining` attempts, each preceded by the
fixed delay. -/
theorem reconnectLoop_exhausted (initOk : Nat → Bool) :
    ∀ r idx m ds, reconnectLoop initOk idx r = .exhausted m ds →
      m = r ∧ ds = List.replicate r reconnectDelay := by
  intro r
  induction r with
  | zero =>
    intro idx m ds h
    unfold reconnectLoop at h
    cases h
    exact ⟨rfl, rfl⟩
  | succ r ih =>
    intro idx m ds h
    unfold reconnectLoop at h
    by_cases hk : initOk idx
    · rw [if_pos hk] at h
      cases h
    · rw [if_neg hk] at h
      cases hrec : reconnectLoop initOk (idx + 1) r with
      | connected cA2 m2 ds2 =>
        rw [hrec] at h
        cases h
      | exhausted m2 ds2 =>
        rw [hrec] at h
        rcases ih (idx + 1) m2 ds2 hrec with ⟨h1, h2⟩
        injection h with e1 e2
        subst e1
        subst e2
        subst h1
        subst h2
        exact ⟨rfl, (List.replicate_succ _ _).symm⟩

/-- When every attempt fails, the loop runs out after exactly `remaining`
attempts. -/
theorem reconnectLoop_all_fail (initOk : Nat → Bool)
    (hfail : ∀ k, initOk k = false) :
    ∀ r idx, reconnectLoop initOk idx r =
      .exhausted r (List.replicate r reconnectDelay) := by
  intro r
  induction r with
  | zero => intro idx; rfl
  | succ r ih =>
    intro idx
    unfold reconnectLoop
    rw [if_neg (by simp [hfail idx])]
    rw [ih (idx + 1)]
    rfl

/-- Claim C9: after exactly `maxReconnectAttempts` (10) consecutive failed
init attempts without reaching Connected, the supervisor is exhausted
(process-fatal, no further attempts: exactly 10 were made), each attempt
waited the fixed (non-exponential) `reconnectDelay` once, and the attempt
counter is zero after — and only after — reaching Connected. -/
theorem handleReconnect_exhaustion (initOk : Nat → Bool) (idx attempts : Nat) :
    ((∀ k, initOk k = false) →
      handleReconnect initOk 0 0 =
        .exhausted maxReconnectAttempts
          (List.replicate maxReconnectAttempts reconnectDelay)) ∧
    (∀ cA m ds, handleReconnect initOk idx attempts = .connected cA m ds →
      cA = 0 ∧ ds = List.replicate m reconnectDelay) ∧
    (∀ m ds, handleReconnect initOk idx attempts = .exhausted m ds →
      m = maxReconnectAttempts - attempts ∧
      ds = List.replicate m reconnectDelay) := by
  refine ⟨?_, ?_, ?_⟩
  · intro hfail
    unfold handleReconnect
    exact reconnectLoop_all_fail initOk hfail _ 0
  · intro cA m ds h
    exact reconnectLoop_connected initOk _ idx cA m ds h
  · intro m ds h
    rcases reconnectLoop_exhausted initOk _ idx m ds h with ⟨h1, h2⟩
    subst h1
    exact ⟨rfl, h2⟩

/-- Instantiation of `handleReconnect_exhaustion`: an always-failing init
exhausts after exactly 10 attempts with ten fixed 5000 ms waits, and an
immediately-successful init connects with the counter reset to zero. -/
theorem handleReconnect_exhaustion_witness :
    handleReconnect (fun _ => false) 0 0 =
      .exhausted maxReconnectAttempts
        (List.replicate maxReconnectAttempts reconnectDelay) ∧
    ((0 : Nat) = 0 ∧ [reconnectDelay] = List.replicate 1 reconnectDelay) := by
  constructor
  · exact (handleReconnect_exhaustion (fun _ => false) 0 0).1 (fun _ => rfl)
  · exact (handleReconnect_exhaustion (fun _ => true) 0 0).2.1 0 1
      [reconnectDelay] (by decide)

end TelegramBot
